import Mathlib

/-!
Verification of `src/seminars/ranges.cpp`.

The program reads whitespace-separated pairs of numbers (`Point`) from
standard input through a lazy pipeline (`views::istream | views::filter
| views::transform`), writes the pipeline output minus its first element
to standard output, re-copies the (now exhausted) pipeline into a vector,
runs a bounded traversal of an unbounded counter, and finally sorts the
cached vector three equivalent ways by the `z` field.

The C++ `float` fields are modelled as rationals (`ℚ`): none of the
checked properties depends on rounding.  A separate model with an explicit
NaN value (`FNaN`) is used for the claim about NaN and the filter.
The forward-only `std::cin` stream is modelled as a list of extraction
attempts plus a sticky fail bit, exactly the iostream semantics the
pipeline relies on.
-/

namespace RangesCpp

/-- The C++ `float` field type for the main model: exact rationals. -/
abbrev F := ℚ

/-- The record `struct Point { float x; float y; }` (ranges.cpp:13). -/
structure Point where
  x : F
  y : F
deriving DecidableEq, Repr

/-- The record `struct Point3 { float x; float y; float z; }` (ranges.cpp:18). -/
structure Point3 where
  x : F
  y : F
  z : F
deriving DecidableEq, Repr

/-- One extraction attempt `istr >> point.x >> point.y`
(`operator>>`, ranges.cpp:24): `some p` when both numbers parse,
`none` when the text is malformed and extraction fails. -/
abbrev Tok := Option Point

/-- The stream `std::cin` as seen by `views::istream<Point>`: the remaining
extraction attempts and the sticky fail bit of the stream. -/
structure IStream where
  toks : List Tok
  fail : Bool
deriving DecidableEq, Repr

/-- Reading `Point`s until extraction fails (end of input or malformed
text), the traversal `views::istream<Point>` performs.  Returns the
points obtained and the final stream state: the fail bit is set both at
end of input and at a parse failure, exactly as for `std::cin`. -/
def readAllAux : List Tok → List Point × IStream
  | [] => ([], ⟨[], true⟩)
  | none :: rest => ([], ⟨none :: rest, true⟩)
  | some p :: rest =>
      let r := readAllAux rest
      (p :: r.1, r.2)

/-- A full traversal of `views::istream<Point>(std::cin)`: a failed
stream yields nothing, otherwise points are read until failure. -/
def readAll (s : IStream) : List Point × IStream :=
  if s.fail then ([], s) else readAllAux s.toks

/-- The filter lambda `[](Point value) { return value.x < 20.0f; }`
(ranges.cpp:35). -/
def filterFn (value : Point) : Bool := decide (value.x < 20)

/-- The transform lambda
`[](Point value) { return Point3(value.x, value.x * value.y, value.y); }`
(ranges.cpp:38): fields are `x = value.x`, `y = value.x * value.y`,
`z = value.y`. -/
def transformFn (value : Point) : Point3 :=
  ⟨value.x, value.x * value.y, value.y⟩

/-- One traversal of the pipeline
`views::istream<Point>(std::cin) | views::filter(...) | views::transform(...)`:
the records it yields and the stream state it leaves behind. -/
def traversePoints (s : IStream) : List Point3 × IStream :=
  let r := readAll s
  ((r.1.filter filterFn).map transformFn, r.2)

/-- The records the pipeline derives from a given input state. -/
def derivedRecords (s : IStream) : List Point3 :=
  (traversePoints s).1

/-- The printer `operator<<(std::ostream&, const Point3&)` (ranges.cpp:28):
`ostr << point.x << " " << point.y << " " << point.z`. -/
def renderPoint3 (point : Point3) : String :=
  toString point.x ++ " " ++ toString point.y ++ " " ++ toString point.z

/-- The statement `rng::copy(points | views::drop(1), std::ostream_iterator<Point3>(std::cout, "\n"))`
(ranges.cpp:53): the lines written to standard output (each record
rendered by `operator<<` followed by the delimiter `"\n"`) and the
stream state after the traversal. -/
def firstCopyOut (s : IStream) : List String × IStream :=
  let r := traversePoints s
  (((r.1).drop 1).map (fun p => renderPoint3 p ++ "\n"), r.2)

/-- The statement `rng::copy(points, std::back_inserter(cached_points))` (ranges.cpp:59):
the second traversal of the same pipeline, run after the first copy. -/
def cachedPoints (s : IStream) : List Point3 :=
  (traversePoints (firstCopyOut s).2).1

/-- Pull-based evaluator for the bounded view pipeline
`views::iota(v) | views::filter(pred) | views::transform(f)
| views::drop(d) | views::take(t)` (ranges.cpp:73).  `fuel` bounds how
many counter values may be pulled; `none` means the traversal did not
finish within the fuel, `some l` that it terminated with output `l`. -/
def viewEval (pred : Int → Bool) (f : Int → Int) :
    Int → Nat → Nat → Nat → Option (List Int)
  | _, _, 0, _ => some []
  | _, _, _ + 1, 0 => none
  | v, d, t + 1, fuel + 1 =>
    if pred v then
      match d with
      | 0 => (viewEval pred f (v + 1) 0 t fuel).map (f v :: ·)
      | d' + 1 => viewEval pred f (v + 1) d' (t + 1) fuel
    else viewEval pred f (v + 1) d (t + 1) fuel

/-- The concrete pipeline of ranges.cpp:73:
`iota(0) | filter(v % 1 == 0) | transform(v * v) | drop(2) | take(20)`. -/
def squaresPipe (fuel : Nat) : Option (List Int) :=
  viewEval (fun v => v % 1 == 0) (fun v => v * v) 0 2 20 fuel

/-- The comparator lambda of the `std::sort` call (ranges.cpp:113):
`[](const Point3& a, const Point3& b) { return a.z < b.z; }`. -/
def cmpStd (a b : Point3) : Bool := decide (a.z < b.z)

/-- The call `std::sort(cached_points.begin(), cached_points.end(), cmp)`
(ranges.cpp:113): a permutation ordered so that no later element
compares less than an earlier one.  Modelled by `mergeSort` with the
non-strict relation induced by the comparator. -/
def sortStd (l : List Point3) : List Point3 :=
  l.mergeSort (fun a b => !cmpStd b a)

/-- The projection lambda `[](Point3 value) { return value.z; }`
(ranges.cpp:117). -/
def projLambdaZ (value : Point3) : F := value.z

/-- The call `rng::sort(cached_points, {}, [](Point3 value) {return value.z;})`
(ranges.cpp:117): default comparator `ranges::less` on the projected
values. -/
def sortProjLambda (l : List Point3) : List Point3 :=
  l.mergeSort (fun a b => !(decide (projLambdaZ b < projLambdaZ a)))

/-- The member-pointer projection `&Point3::z` (ranges.cpp:119). -/
def projMemberZ (value : Point3) : F := value.z

/-- The call `rng::sort(cached_points, {}, &Point3::z)` (ranges.cpp:119). -/
def sortProjMember (l : List Point3) : List Point3 :=
  l.mergeSort (fun a b => !(decide (projMemberZ b < projMemberZ a)))

/-- The three successive sorting statements of ranges.cpp:113-119
applied to the cached vector. -/
def sortSteps (l : List Point3) : List Point3 :=
  sortProjMember (sortProjLambda (sortStd l))

/-- The C++ `float` type with an explicit NaN: `none` is NaN, `some q` a finite
value.  Used to check the filter's behaviour on NaN inputs. -/
abbrev FNaN := Option ℚ

/-- The IEEE-754 comparison `<` on floats: any comparison with NaN is false. -/
def fltNaN : FNaN → FNaN → Bool
  | some a, some b => decide (a < b)
  | _, _ => false

/-- The IEEE-754 comparison `>=` on floats: any comparison with NaN is false. -/
def fgeNaN : FNaN → FNaN → Bool
  | some a, some b => decide (b ≤ a)
  | _, _ => false

/-- A parsed input record in the NaN-aware float model. -/
structure PointN where
  x : FNaN
  y : FNaN
deriving DecidableEq

/-- The filter lambda of ranges.cpp:35 under NaN-aware float
comparison: `value.x < 20.0f`. -/
def filterFnNaN (value : PointN) : Bool := fltNaN value.x (some 20)

/-! ### Helper lemmas about the input stream -/

theorem readAllAux_snd_fail (toks : List Tok) : (readAllAux toks).2.fail = true := by
  induction toks with
  | nil => rfl
  | cons t rest ih =>
      cases t with
      | none => rfl
      | some p => simpa [readAllAux] using ih

theorem readAll_snd_fail (s : IStream) : (readAll s).2.fail = true := by
  unfold readAll
  split
  · next h => exact h
  · exact readAllAux_snd_fail s.toks

theorem readAll_of_fail (s : IStream) (h : s.fail = true) : readAll s = ([], s) := by
  simp [readAll, h]

theorem readAllAux_all_parsed (toks : List Tok) (h : ∀ t ∈ toks, t ≠ none) :
    (readAllAux toks).2 = ⟨[], true⟩ := by
  induction toks with
  | nil => rfl
  | cons t rest ih =>
      cases t with
      | none => exact absurd rfl (h none (List.mem_cons_self _ _))
      | some p =>
          simpa [readAllAux] using ih (fun u hu => h u (List.mem_cons_of_mem _ hu))

theorem transformFn_injective : Function.Injective transformFn := by
  intro p q h
  cases p with
  | mk px py =>
      cases q with
      | mk qx qy =>
          simp only [transformFn, Point3.mk.injEq] at h
          simp [h.1, h.2.2]

/-! ### Claim theorems -/

/-- C5: once the first traversal (the copy of `points | drop(1)` to
standard output) has consumed the input stream, re-traversing the same
lazy pipeline yields no records: `cached_points` is empty after the
second copy, for every input. -/
theorem C5_second_traversal_empty (s : IStream) : cachedPoints s = [] := by
  have h : (firstCopyOut s).2.fail = true := by
    simp only [firstCopyOut, traversePoints]
    exact readAll_snd_fail s
  simp [cachedPoints, traversePoints, readAll_of_fail _ h]

/-- C6: a malformed record halts the input pipeline: the points read are
exactly the well-formed prefix, whatever follows the first parse
failure, and the derived records are those of that prefix processed
normally (filtered, then transformed). -/
theorem C6_malformed_input_halts (good : List Point) (rest : List Tok) :
    (readAll ⟨good.map some ++ none :: rest, false⟩).1 = good
    ∧ derivedRecords ⟨good.map some ++ none :: rest, false⟩
        = (good.filter filterFn).map transformFn := by
  have h : readAllAux (good.map some ++ none :: rest)
      = (good, ⟨none :: rest, true⟩) := by
    induction good with
    | nil => rfl
    | cons p ps ih => simp [readAllAux, ih]
  constructor
  · simp [readAll, h]
  · simp [derivedRecords, traversePoints, readAll, h]

/-- C4: an input pair whose first coordinate is at least 20 is excluded
from the derived stream: it does not pass the filter, so neither the
transform step nor the output ever sees it. -/
theorem C4_large_x_excluded (s : IStream) (p : Point)
    (hmem : p ∈ (readAll s).1) (hx : 20 ≤ p.x) :
    p ∉ ((readAll s).1.filter filterFn)
    ∧ transformFn p ∉ derivedRecords s := by
  have hf : filterFn p = false := by
    have : ¬ (p.x < 20) := not_lt.mpr hx
    simp [filterFn, this]
  constructor
  · intro hin
    have h2 := (List.mem_filter.mp hin).2
    rw [hf] at h2
    exact Bool.false_ne_true h2
  · intro hin
    simp only [derivedRecords, traversePoints] at hin
    obtain ⟨q, hq, hqe⟩ := List.mem_map.mp hin
    have hqp : q = p := transformFn_injective hqe
    subst hqp
    have h2 := (List.mem_filter.mp hq).2
    rw [hf] at h2
    exact Bool.false_ne_true h2

/-- Witness for C4 at the concrete input pair (25, 1). -/
theorem C4_large_x_excluded_witness :
    (⟨25, 1⟩ : Point) ∉ ((readAll ⟨[some ⟨25, 1⟩], false⟩).1.filter filterFn)
    ∧ transformFn ⟨25, 1⟩ ∉ derivedRecords ⟨[some ⟨25, 1⟩], false⟩ :=
  C4_large_x_excluded _ _ (by decide) (by decide)

/-- C2: every record of the derived stream comes from a read input pair
(x, y) that passed the filter, and equals the triple with first field x,
second field x * y, third field y. -/
theorem C2_derived_record_shape (s : IStream) (p3 : Point3)
    (h : p3 ∈ derivedRecords s) :
    ∃ p ∈ (readAll s).1, filterFn p = true ∧ p3 = ⟨p.x, p.x * p.y, p.y⟩ := by
  simp only [derivedRecords, traversePoints] at h
  obtain ⟨p, hp, rfl⟩ := List.mem_map.mp h
  exact ⟨p, (List.mem_filter.mp hp).1, (List.mem_filter.mp hp).2, rfl⟩

/-- Witness for C2 at the concrete input pair (1, 2). -/
theorem C2_derived_record_shape_witness :
    ∃ p ∈ (readAll ⟨[some ⟨1, 2⟩], false⟩).1,
      filterFn p = true ∧ (⟨1, 2, 2⟩ : Point3) = ⟨p.x, p.x * p.y, p.y⟩ :=
  C2_derived_record_shape _ _ (by
    norm_num [derivedRecords, traversePoints, readAll, readAllAux, filterFn,
      transformFn])

/-- C3 fails on the code: for the input pair (2, 3) the derived record
is (2, 6, 3), whose third field is 3 = y, not the product 6 = x * y. -/
theorem C3_counterexample :
    ¬ (∀ p3 ∈ derivedRecords ⟨[some ⟨2, 3⟩], false⟩, p3.z = 2 * 3) := by
  intro h
  have h36 := h ⟨2, 6, 3⟩ (by
    norm_num [derivedRecords, traversePoints, readAll, readAllAux, filterFn,
      transformFn])
  norm_num at h36

/-- C3 amended: it is the second field of the derived record that is
the pointwise product of the two source fields; the third field equals
the second source field. -/
theorem C3_amended_product_is_second_field (s : IStream) (p3 : Point3)
    (h : p3 ∈ derivedRecords s) :
    ∃ p ∈ (readAll s).1, p3.y = p.x * p.y ∧ p3.z = p.y := by
  simp only [derivedRecords, traversePoints] at h
  obtain ⟨p, hp, rfl⟩ := List.mem_map.mp h
  exact ⟨p, (List.mem_filter.mp hp).1, rfl, rfl⟩

/-- Witness for the amended C3 at the concrete input pair (2, 3). -/
theorem C3_amended_product_is_second_field_witness :
    ∃ p ∈ (readAll ⟨[some ⟨2, 3⟩], false⟩).1,
      (⟨2, 6, 3⟩ : Point3).y = p.x * p.y ∧ (⟨2, 6, 3⟩ : Point3).z = p.y :=
  C3_amended_product_is_second_field _ _ (by
    norm_num [derivedRecords, traversePoints, readAll, readAllAux, filterFn,
      transformFn])

/-- C1 fails on the code: because of `views::drop(1)` at ranges.cpp:53,
the first derived record (1, 2, 2) of the input (1, 2) (3, 4) is never
written to standard output. -/
theorem C1_counterexample :
    ¬ (∀ p3 ∈ derivedRecords ⟨[some ⟨1, 2⟩, some ⟨3, 4⟩], false⟩,
        renderPoint3 p3 ++ "\n"
          ∈ (firstCopyOut ⟨[some ⟨1, 2⟩, some ⟨3, 4⟩], false⟩).1) := by
  decide

/-- C1 amended: the program reads pairs until the input is exhausted
and writes every derived record except the first to standard output,
each as a whitespace-separated triple on its own newline-terminated
line. -/
theorem C1_amended_output_drops_first (toks : List Tok)
    (h : ∀ t ∈ toks, t ≠ none) :
    (firstCopyOut ⟨toks, false⟩).1
      = ((derivedRecords ⟨toks, false⟩).drop 1).map
          (fun p => renderPoint3 p ++ "\n")
    ∧ (firstCopyOut ⟨toks, false⟩).2 = ⟨[], true⟩ := by
  constructor
  · rfl
  · simp only [firstCopyOut, traversePoints, readAll]
    simpa using readAllAux_all_parsed toks h

/-- Witness for the amended C1 at the concrete input (1, 2) (3, 4). -/
theorem C1_amended_output_drops_first_witness :
    (firstCopyOut ⟨[some ⟨1, 2⟩, some ⟨3, 4⟩], false⟩).1
      = ((derivedRecords ⟨[some ⟨1, 2⟩, some ⟨3, 4⟩], false⟩).drop 1).map
          (fun p => renderPoint3 p ++ "\n")
    ∧ (firstCopyOut ⟨[some ⟨1, 2⟩, some ⟨3, 4⟩], false⟩).2 = ⟨[], true⟩ :=
  C1_amended_output_drops_first _ (by decide)

/-! ### Fuel lemmas for the bounded iota pipeline -/

theorem viewEval_fuel_succ (pred : Int → Bool) (f : Int → Int) :
    ∀ (fuel : Nat) (v : Int) (d t : Nat) (l : List Int),
      viewEval pred f v d t fuel = some l →
      viewEval pred f v d t (fuel + 1) = some l := by
  intro fuel
  induction fuel with
  | zero =>
      intro v d t l h
      cases t with
      | zero =>
          simp only [viewEval] at h ⊢
          exact h
      | succ t => simp [viewEval] at h
  | succ fuel ih =>
      intro v d t l h
      cases t with
      | zero =>
          simp only [viewEval] at h ⊢
          exact h
      | succ t =>
          simp only [viewEval] at h ⊢
          by_cases hp : pred v
          · simp only [hp, if_true] at h ⊢
            cases d with
            | zero =>
                obtain ⟨l', hl', rfl⟩ := Option.map_eq_some'.mp h
                rw [ih _ _ _ _ hl']
                rfl
            | succ d' => exact ih _ _ _ _ h
          · simp only [hp, if_false] at h ⊢
            exact ih _ _ _ _ h

theorem viewEval_fuel_add (pred : Int → Bool) (f : Int → Int) (v : Int)
    (d t : Nat) (l : List Int) (fuel extra : Nat)
    (h : viewEval pred f v d t fuel = some l) :
    viewEval pred f v d t (fuel + extra) = some l := by
  induction extra with
  | zero => exact h
  | succ e ihe => exact viewEval_fuel_succ pred f (fuel + e) v d t l ihe

/-- C7: for every fuel of at least 22 counter values, the bounded
traversal of the unbounded counter terminates (returns `some`) and
produces exactly the 20 values k * k for k = 2, ..., 21, in increasing
order of k. -/
theorem C7_iota_pipeline_bounded (extra : Nat) :
    squaresPipe (22 + extra)
      = some ((List.range 20).map fun k => ((k : Int) + 2) * ((k : Int) + 2))
    ∧ ((List.range 20).map fun k => ((k : Int) + 2) * ((k : Int) + 2)).length
        = 20
    ∧ ((List.range 20).map
        fun k => ((k : Int) + 2) * ((k : Int) + 2)).Pairwise (· < ·) := by
  refine ⟨?_, by decide, by decide⟩
  exact viewEval_fuel_add _ _ 0 2 20 _ 22 extra (by decide)

/-! ### Sorting lemmas -/

theorem leZ_iff (a b : Point3) : (!(decide (b.z < a.z))) = true ↔ a.z ≤ b.z := by
  simp [not_lt]

theorem leZb_trans (a b c : Point3) (h₁ : (!(decide (b.z < a.z))) = true)
    (h₂ : (!(decide (c.z < b.z))) = true) : (!(decide (c.z < a.z))) = true := by
  rw [leZ_iff] at h₁ h₂ ⊢
  exact le_trans h₁ h₂

theorem leZb_total (a b : Point3) :
    ((!(decide (b.z < a.z))) || (!(decide (a.z < b.z)))) = true := by
  simp only [Bool.or_eq_true, leZ_iff]
  exact le_total a.z b.z

theorem sortedZ_mergeSort (l : List Point3) :
    (List.mergeSort l fun a b => !(decide (b.z < a.z))).Sorted
      fun a b => a.z ≤ b.z := by
  have hp := List.sorted_mergeSort leZb_trans leZb_total l
  exact hp.imp fun h => (leZ_iff _ _).mp h

theorem eq_of_sorted_perm_distinct (l l₁ l₂ : List Point3)
    (hd : l.Pairwise fun a b => a.z ≠ b.z)
    (h₁ : l₁.Perm l) (h₂ : l₂.Perm l)
    (s₁ : l₁.Sorted fun a b => a.z ≤ b.z)
    (s₂ : l₂.Sorted fun a b => a.z ≤ b.z) : l₁ = l₂ := by
  have hd₁ : l₁.Pairwise fun a b => a.z ≠ b.z :=
    h₁.symm.pairwise hd fun h => h.symm
  have hd₂ : l₂.Pairwise fun a b => a.z ≠ b.z :=
    h₂.symm.pairwise hd fun h => h.symm
  have lt₁ : l₁.Pairwise fun a b => a.z < b.z :=
    List.Pairwise.imp₂ (fun a b hle hne => lt_of_le_of_ne hle hne) s₁ hd₁
  have lt₂ : l₂.Pairwise fun a b => a.z < b.z :=
    List.Pairwise.imp₂ (fun a b hle hne => lt_of_le_of_ne hle hne) s₂ hd₂
  letI : IsAntisymm Point3 fun a b => a.z < b.z :=
    ⟨fun a b hab hba => absurd (lt_trans hab hba) (lt_irrefl _)⟩
  exact List.eq_of_perm_of_sorted (h₁.trans h₂.symm) lt₁ lt₂

/-- C8: the three successive sorting statements turn the cached vector
into a permutation of its prior contents that is in ascending order of
the z field; nothing is added, removed or modified. -/
theorem C8_sortSteps_perm_sorted (l : List Point3) :
    (sortSteps l).Perm l ∧ (sortSteps l).Sorted fun a b => a.z ≤ b.z := by
  constructor
  · exact (List.mergeSort_perm _ _).trans
      ((List.mergeSort_perm _ _).trans (List.mergeSort_perm _ _))
  · exact sortedZ_mergeSort _

/-- C9: the three sorting formulations (comparator on z, lambda
projection to z, member-pointer projection to z) each yield a
permutation of the input sorted ascending by z, and when the z values
are pairwise distinct the three results are identical. -/
theorem C9_sort_formulations_equivalent (l : List Point3) :
    (((sortStd l).Perm l ∧ (sortStd l).Sorted fun a b => a.z ≤ b.z)
      ∧ ((sortProjLambda l).Perm l
          ∧ (sortProjLambda l).Sorted fun a b => a.z ≤ b.z)
      ∧ ((sortProjMember l).Perm l
          ∧ (sortProjMember l).Sorted fun a b => a.z ≤ b.z))
    ∧ ((l.Pairwise fun a b => a.z ≠ b.z) →
        sortStd l = sortProjLambda l
        ∧ sortProjLambda l = sortProjMember l) := by
  refine ⟨⟨⟨List.mergeSort_perm _ _, sortedZ_mergeSort _⟩,
    ⟨List.mergeSort_perm _ _, sortedZ_mergeSort _⟩,
    ⟨List.mergeSort_perm _ _, sortedZ_mergeSort _⟩⟩, fun hd => ?_⟩
  constructor
  · exact eq_of_sorted_perm_distinct l _ _ hd (List.mergeSort_perm _ _)
      (List.mergeSort_perm _ _) (sortedZ_mergeSort _) (sortedZ_mergeSort _)
  · exact eq_of_sorted_perm_distinct l _ _ hd (List.mergeSort_perm _ _)
      (List.mergeSort_perm _ _) (sortedZ_mergeSort _) (sortedZ_mergeSort _)

/-- Witness for C9 at a concrete three-element vector with distinct z. -/
theorem C9_sort_formulations_equivalent_witness :
    (((sortStd [⟨0, 0, 3⟩, ⟨0, 0, 1⟩, ⟨0, 0, 2⟩]).Perm [⟨0, 0, 3⟩, ⟨0, 0, 1⟩, ⟨0, 0, 2⟩]
      ∧ (sortStd [⟨0, 0, 3⟩, ⟨0, 0, 1⟩, ⟨0, 0, 2⟩]).Sorted fun a b => a.z ≤ b.z)
      ∧ ((sortProjLambda [⟨0, 0, 3⟩, ⟨0, 0, 1⟩, ⟨0, 0, 2⟩]).Perm [⟨0, 0, 3⟩, ⟨0, 0, 1⟩, ⟨0, 0, 2⟩]
          ∧ (sortProjLambda [⟨0, 0, 3⟩, ⟨0, 0, 1⟩, ⟨0, 0, 2⟩]).Sorted fun a b => a.z ≤ b.z)
      ∧ ((sortProjMember [⟨0, 0, 3⟩, ⟨0, 0, 1⟩, ⟨0, 0, 2⟩]).Perm [⟨0, 0, 3⟩, ⟨0, 0, 1⟩, ⟨0, 0, 2⟩]
          ∧ (sortProjMember [⟨0, 0, 3⟩, ⟨0, 0, 1⟩, ⟨0, 0, 2⟩]).Sorted fun a b => a.z ≤ b.z))
    ∧ (sortStd [⟨0, 0, 3⟩, ⟨0, 0, 1⟩, ⟨0, 0, 2⟩]
        = sortProjLambda [⟨0, 0, 3⟩, ⟨0, 0, 1⟩, ⟨0, 0, 2⟩]
      ∧ sortProjLambda [⟨0, 0, 3⟩, ⟨0, 0, 1⟩, ⟨0, 0, 2⟩]
        = sortProjMember [⟨0, 0, 3⟩, ⟨0, 0, 1⟩, ⟨0, 0, 2⟩]) :=
  ⟨(C9_sort_formulations_equivalent [⟨0, 0, 3⟩, ⟨0, 0, 1⟩, ⟨0, 0, 2⟩]).1,
    (C9_sort_formulations_equivalent [⟨0, 0, 3⟩, ⟨0, 0, 1⟩, ⟨0, 0, 2⟩]).2 (by decide)⟩

/-- C10: the filter keeps a record exactly when its x field is a
number strictly less than 20; a NaN x field is excluded even though it
is also not greater than or equal to 20. -/
theorem C10_filter_nan (p : PointN) :
    (filterFnNaN p = true ↔ ∃ q, p.x = some q ∧ q < 20)
    ∧ (p.x = none →
        filterFnNaN p = false ∧ fgeNaN p.x (some 20) = false) := by
  constructor
  · cases hx : p.x with
    | none => simp [filterFnNaN, fltNaN, hx]
    | some q => simp [filterFnNaN, fltNaN, hx]
  · intro hnan
    simp [filterFnNaN, fltNaN, fgeNaN, hnan]

/-- Witness for C10 at a record whose x field is NaN. -/
theorem C10_filter_nan_witness :
    filterFnNaN ⟨none, some 1⟩ = false
    ∧ fgeNaN none (some 20) = false :=
  (C10_filter_nan ⟨none, some 1⟩).2 rfl

end RangesCpp
